import Mathlib

/-!
Shallow embedding of the video pipeline of `src/video_stream.rs`
(PISCES-HI/rover-gui): the ingest loop `start_video_stream`, the recording
worker `start_video_recording`, and the shared preview image buffer.

Machine integers (`i64`) are modelled as `Int`; Rust's `/` on `i64`
truncates toward zero, which is `Int.tdiv`.  Fallible ffmpeg calls are
modelled by `Except` values supplied as inputs of each loop iteration
(the environment decides whether a decode / scale / convert / encode call
succeeds), and `.unwrap()` on an error is modelled as a `panic` outcome
that terminates the thread's loop.
-/

namespace RoverVideo

/-- Source `let fps: i64 = 10;` (both in `start_video_stream` and
`start_video_recording`). -/
def fps : Int := 10

/-- Source `let sleep = 1_000_000/fps;` — the frame interval in microseconds,
computed with Rust `i64` division (truncation toward zero). -/
def sleepInterval : Int := Int.tdiv 1000000 fps

/-- The presentation timestamp computed at line 118 of `video_stream.rs`:
`let pts = ((ffmpeg::time::relative() as i64) - start)/sleep;`
as a function of the capture time, the recording start time and the
frame interval (Rust `i64` division = truncation toward zero). -/
def computePts (captureTime recStart interval : Int) : Int :=
  Int.tdiv (captureTime - recStart) interval

/-! ## The ingest loop (`start_video_stream`, lines 30–134)

One iteration of `for (stream, packet) in format_context.packets()` is
modelled by `ingestStep`.  The environment-dependent outcomes of the
ffmpeg calls of that iteration (decode result, scaler result, the bytes
found in `output_frame.data(0)` after the scaler ran, the wall-clock
readings of the two `ffmpeg::time::relative()` calls) are inputs.
`packet.pts()` is modelled as always present (the code unwraps it). -/

/-- Source `pub enum VideoMsg { Start(String), Stop }`. -/
inductive VideoMsg where
  | Start (outPath : String)
  | Stop

/-- The mutable loop-carried state of the ingest thread:
`video_t.is_some()` (a recording session is open), `start` (wall clock
at the accepted `Start`, line 100) and `rec_start_pts` (line 99). -/
structure IngestState where
  recording : Bool
  start : Int
  recStartPts : Int
  deriving DecidableEq

/-- Inputs of one loop iteration: the outcome of
`decoder.decode(&packet, &mut input_frame)`, the decoded frame bytes,
the outcome of `sws_context.run(&input_frame, &mut output_frame)`, the
bytes of `output_frame.data(0)` after that call, the packet's embedded
`pts`, the message polled by `record_r.try_recv()`, and the wall-clock
values returned by `ffmpeg::time::relative()` at line 100 (`tMsg`) and
at line 118 (`tSend`). -/
structure IterInput where
  decodeResult : Except String Unit
  inputFrame : List Nat
  scaleResult : Except String Unit
  scaledData : List Nat
  packetPts : Int
  msg : Option VideoMsg
  tMsg : Int
  tSend : Int

/-- Observable effects of one iteration: log lines printed, the
`out_path`s of recording workers spawned via `start_video_recording`,
whether `RecordPacket::Close` was sent, and the `(pts, frame)` pairs
sent as `RecordPacket::Packet` on the recording channel. -/
structure IterEffects where
  log : List String
  spawned : List String
  closeSent : Bool
  sent : List (Int × List Nat)
  deriving DecidableEq

/-- Outcome of one iteration: `panic` models `.unwrap()` on an `Err`
(the thread dies), `next` carries the new state, the new preview buffer
contents and the iteration's effects. -/
inductive IterOutcome where
  | panic (e : String)
  | next (s : IngestState) (buf : List Nat) (eff : IterEffects)
  deriving DecidableEq

/-- Lines 86–90: `ptr::copy(src, dst, frame_data.len())` — a raw copy of
exactly `frameData.length` bytes from the scaled frame's first data
plane to the start of the preview buffer, with no bounds check.  The
result lists the bytes of memory starting at the buffer: when
`frameData` is longer than the buffer the result is longer than the
allocation, representing a write past its end. -/
def publishFrame (buf frameData : List Nat) : List Nat :=
  frameData ++ buf.drop frameData.length

/-- The message handling of lines 93–113: returns the new state, the
spawned worker paths, and whether `Close` was sent.  A `Start` is acted
on only `if video_t.is_none()`; a `Stop` sends `Close` when a session is
open and clears `video_t`. -/
def handleMsg (s : IngestState) (msg : Option VideoMsg) (packetPts tMsg : Int) :
    IngestState × List String × Bool :=
  match msg with
  | some (VideoMsg.Start outPath) =>
    if s.recording then (s, [], false)
    else ({ recording := true, start := tMsg, recStartPts := packetPts }, [outPath], false)
  | some VideoMsg.Stop => ({ s with recording := false }, [], s.recording)
  | none => (s, [], false)

/-- Lines 78–80: the log line produced by a scaling failure; a success
logs nothing. -/
def scaleLogOf : Except String Unit → List String
  | Except.error e => ["WARNING: video software scaling error: " ++ e]
  | Except.ok _ => []

/-- One iteration of the ingest loop (lines 72–130): decode (`.unwrap()`
panics on error), scale (an error is only logged), unconditional raw
copy into the shared preview buffer, message poll, then — if a session
is open — send `RecordPacket::Packet(pts, input_frame)` with
`pts = (tSend - start) / sleep`. -/
def ingestStep (s : IngestState) (buf : List Nat) (inp : IterInput) : IterOutcome :=
  match inp.decodeResult with
  | Except.error e => IterOutcome.panic e
  | Except.ok _ =>
    let buf1 := publishFrame buf inp.scaledData
    let h := handleMsg s inp.msg inp.packetPts inp.tMsg
    let sent := if h.1.recording then
        [(computePts inp.tSend h.1.start sleepInterval, inp.inputFrame)]
      else []
    IterOutcome.next h.1 buf1 ⟨scaleLogOf inp.scaleResult, h.2.1, h.2.2, sent⟩

/-- The packets sent on the recording channel by an iteration outcome. -/
def sentOf : IterOutcome → List (Int × List Nat)
  | IterOutcome.panic _ => []
  | IterOutcome.next _ _ eff => eff.sent

/-- The preview buffer contents after an iteration (`none` on panic). -/
def bufOf : IterOutcome → Option (List Nat)
  | IterOutcome.panic _ => none
  | IterOutcome.next _ b _ => some b

/-- The log lines printed by an iteration. -/
def logOf : IterOutcome → List String
  | IterOutcome.panic _ => []
  | IterOutcome.next _ _ eff => eff.log

/-- Whether the iteration panicked (the thread died). -/
def isPanic : IterOutcome → Bool
  | IterOutcome.panic _ => true
  | IterOutcome.next _ _ _ => false

/-- Accumulated observable state of a run of the ingest loop. -/
structure RunState where
  s : IngestState
  buf : List Nat
  log : List String
  spawned : List String
  sent : List (Int × List Nat)
  panicked : Option String
  deriving DecidableEq

/-- Running the ingest loop over a list of iteration inputs.  A panic
(an unwrapped decode error) terminates the loop: the remaining inputs
are never processed. -/
def ingestRun (st : RunState) : List IterInput → RunState
  | [] => st
  | inp :: rest =>
    match st.panicked with
    | some _ => st
    | none =>
      match ingestStep st.s st.buf inp with
      | IterOutcome.panic e => { st with panicked := some e }
      | IterOutcome.next s1 buf1 eff =>
        ingestRun { s := s1, buf := buf1, log := st.log ++ eff.log,
                    spawned := st.spawned ++ eff.spawned,
                    sent := st.sent ++ eff.sent, panicked := none } rest

/-! ## The recording worker (`start_video_recording`, lines 141–226)

The worker thread's body is modelled as a function from the sequence of
messages received on its channel (each paired with the
environment-chosen outcomes of the converter and encoder calls made
while processing it) and the sequence of `flush` outcomes, to the list
of container/log actions it performs, in order. -/

/-- A rational time base `(num, den)` as passed to `set_time_base` and
`rescale_ts`. -/
abbrev TimeBase := Int × Int

/-- The fixed configuration performed at lines 160–183: one MPEG4 video
stream at the decoder's dimensions, YUV420P pixel format, codec time
base `(1, 1000)` (line 168; the `(1, fps)` variant is commented out),
stream time base `(1, 1000)` (line 171), `GLOBAL_HEADER` flag. -/
structure RecConfig where
  width : Nat
  height : Nat
  codecId : String
  pixelFormat : String
  codecTimeBase : TimeBase
  streamTimeBase : TimeBase
  globalHeader : Bool
  deriving DecidableEq

/-- The configuration values assigned by `start_video_recording` for a
decoder of the given dimensions. -/
def recConfig (w h : Nat) : RecConfig :=
  { width := w, height := h, codecId := "MPEG4", pixelFormat := "YUV420P",
    codecTimeBase := (1, 1000), streamTimeBase := (1, 1000), globalHeader := true }

/-- One container / log action performed by the recording worker. -/
inductive RecAction where
  | writeHeader
  | logWarn (msg : String)
  | setFramePts (pts : Int)
  | setStream (idx : Nat)
  | rescaleTs (src dst : TimeBase)
  | writePacket
  | writeTrailer
  deriving DecidableEq

/-- A message received by the worker: a `RecordPacket::Packet(pts, frame)`
together with the outcomes of the `rec_converter.run` and
`rec_video.encode` calls made while processing it (the encoder's `Ok`
carries whether a packet was produced — the code writes on any `Ok`),
or `RecordPacket::Close`.  A run whose message list is exhausted without
a `close` models channel disconnection (`recv()` returning `Err`). -/
inductive RecMsg where
  | packet (pts : Int) (convResult : Except String Unit)
           (encResult : Except String Bool)
  | close

/-- Lines 202–204 and 218–220: `set_stream(0)`, then
`rescale_ts((1, 10), (1, 17500))` with both time bases hard-coded, then
`write_interleaved`. -/
def packetWriteActions : List RecAction :=
  [RecAction.setStream 0, RecAction.rescaleTs (1, 10) (1, 17500),
   RecAction.writePacket]

/-- Lines 195–197: a converter error is logged; nothing else happens to
the frame on that path. -/
def convActions : Except String Unit → List RecAction
  | Except.error e =>
    [RecAction.logWarn ("WARNING: video software converter error: " ++ e)]
  | Except.ok _ => []

/-- Lines 200–209: on `Ok(_)` the packet is stamped and written; on
`Err(e)` the failure is logged and nothing is written. -/
def encodeActions : Except String Bool → List RecAction
  | Except.ok _ => packetWriteActions
  | Except.error e =>
    [RecAction.logWarn ("WARNING: Failed to write video frame: " ++ e)]

/-- Receive loop `while let Ok(msg) = msgs.recv()` (lines 191–215): each
`Packet` runs the converter (logging an error), sets the frame pts, and
matches on the encoder; `Close` breaks out of the loop, leaving any
later messages unprocessed; an exhausted list models disconnection. -/
def recLoop : List RecMsg → List RecAction
  | [] => []
  | RecMsg.close :: _ => []
  | RecMsg.packet pts conv enc :: rest =>
    convActions conv ++
      ((RecAction.setFramePts pts :: encodeActions enc) ++ recLoop rest)

/-- The drain loop `while let Ok(true) = rec_video.flush(&mut rec_packet)`
(lines 217–221): the number of produced-and-written flush packets is the
length of the longest prefix of flush outcomes equal to `Ok(true)`. -/
def drainWrites : List (Except String Bool) → Nat
  | Except.ok true :: rest => drainWrites rest + 1
  | _ => 0

/-- The whole worker thread body after setup: write the container header
(line 183), run the receive loop, drain the encoder, write the trailer
(line 223). -/
def recWorkerRun (msgs : List RecMsg) (flushes : List (Except String Bool)) :
    List RecAction :=
  RecAction.writeHeader ::
    (recLoop msgs
      ++ List.flatten (List.replicate (drainWrites flushes) packetWriteActions)
      ++ [RecAction.writeTrailer])

/-! ## The Live Frame Buffer under the mutex (lines 32–34 and 82–91)

`rgba_img` is an `Arc<Mutex<RgbaImage>>`; the ingest thread locks it for
the whole `ptr::copy` of a frame (lines 83–91) and the render consumer
locks it to snapshot it.  The interleaved execution of the two threads
is modelled by a trace of atomic events over a lock-annotated state:
the writer acquires the lock, copies the frame one byte at a time while
holding it, and releases it only after the full copy; the reader's
snapshot (lock, memory copy, unlock) is a single event enabled only
when the lock is free.  Mutual exclusion is enforced by the enabling
conditions.  Buffers are byte functions `Nat → Nat`; only the first
`previewBufLen` bytes (the 512×512 RGBA allocation) are meaningful, and
the copy length is the full preview frame (the unchecked-length aspect
of the raw copy is treated separately by `publishFrame`). -/

/-- Source `RgbaImage::new(512, 512)` holds `512 * 512 * 4` bytes. -/
def previewBufLen : Nat := 512 * 512 * 4

/-- A byte buffer / frame, as a function from byte index to byte. -/
abbrev Image := Nat → Nat

/-- Source `RgbaImage::new` zero-initialises the allocation. -/
def initialImage : Image := fun _ => 0

/-- Whether the mutex around the preview image is held. -/
inductive LockOwner where
  | free
  | held
  deriving DecidableEq

/-- State of the shared buffer: its bytes, the mutex, and — while the
writer holds the mutex — the frame being copied in and the number of
bytes already copied. -/
structure LiveBuf where
  buf : Image
  owner : LockOwner
  copying : Option (Image × Nat)

/-- The initial shared state: the zeroed allocation, mutex free. -/
def initLiveBuf : LiveBuf :=
  { buf := initialImage, owner := LockOwner.free, copying := none }

/-- Atomic events of the two threads touching the shared buffer. -/
inductive BufEv where
  | wAcquire (f : Image)
  | wCopy
  | wRelease
  | rObserve

/-- Small-step semantics of one event: `none` when the event is not
enabled (it would violate the mutex discipline or the writer's
protocol).  `rObserve` yields the image the reader snapshots. -/
def applyEv (s : LiveBuf) : BufEv → Option (LiveBuf × Option Image)
  | BufEv.wAcquire f =>
    match s.owner with
    | LockOwner.free =>
      some ({ s with owner := LockOwner.held, copying := some (f, 0) }, none)
    | LockOwner.held => none
  | BufEv.wCopy =>
    match s.owner, s.copying with
    | LockOwner.held, some (f, k) =>
      if k < previewBufLen then
        some ({ buf := fun i => if i = k then f k else s.buf i,
                owner := LockOwner.held, copying := some (f, k + 1) }, none)
      else none
    | _, _ => none
  | BufEv.wRelease =>
    match s.owner, s.copying with
    | LockOwner.held, some (_, k) =>
      if k = previewBufLen then
        some ({ s with owner := LockOwner.free, copying := none }, none)
      else none
    | _, _ => none
  | BufEv.rObserve =>
    match s.owner with
    | LockOwner.free => some (s, some s.buf)
    | LockOwner.held => none

/-- Run a trace of events from a state, collecting the reader's
observations; `none` if some event of the trace is not enabled. -/
def runBuf (s : LiveBuf) : List BufEv → Option (LiveBuf × List Image)
  | [] => some (s, [])
  | e :: rest =>
    match applyEv s e with
    | none => none
    | some (s1, obs) =>
      match runBuf s1 rest with
      | none => none
      | some (t, l) => some (t, obs.toList ++ l)

/-- The frames the writer published (passed to `wAcquire`) in a trace. -/
def framesOf (evs : List BufEv) : List Image :=
  evs.filterMap (fun e => match e with
    | BufEv.wAcquire f => some f
    | _ => none)

/-- Two images agree on every byte of the 512×512 RGBA allocation. -/
def completeFrame (o f : Image) : Prop :=
  ∀ i, i < previewBufLen → o i = f i

/-- The frames an event makes available for later observation. -/
def pubOf : BufEv → List Image → List Image
  | BufEv.wAcquire f, pub => f :: pub
  | _, pub => pub

/-- Mutex invariant of the shared buffer: when the lock is free no copy
is in progress and the buffer is a complete published frame; while the
writer holds it, the buffer is the in-progress frame up to the copied
prefix and the previously published frame beyond it. -/
def BufInv (pub : List Image) (s : LiveBuf) : Prop :=
  (s.owner = LockOwner.free ∧ s.copying = none ∧
    ∃ g, g ∈ pub ∧ completeFrame s.buf g)
  ∨ (s.owner = LockOwner.held ∧
    ∃ f k g, s.copying = some (f, k) ∧ k ≤ previewBufLen ∧ f ∈ pub ∧ g ∈ pub ∧
      ∀ i, i < previewBufLen → s.buf i = if i < k then f i else g i)

/-! ## Concrete inputs used by the closed instance theorems -/

/-- An iteration whose packet fails to decode. -/
def decodeFailInput : IterInput :=
  { decodeResult := Except.error "corrupt packet", inputFrame := [],
    scaleResult := Except.ok (), scaledData := [], packetPts := 0,
    msg := none, tMsg := 0, tSend := 0 }

/-- A benign iteration following a failing one. -/
def goodInput : IterInput :=
  { decodeResult := Except.ok (), inputFrame := [7],
    scaleResult := Except.ok (), scaledData := [9, 9, 9, 9], packetPts := 1,
    msg := none, tMsg := 1, tSend := 1 }

/-- An iteration whose preview scaling fails. -/
def scaleFailInput : IterInput :=
  { decodeResult := Except.ok (), inputFrame := [],
    scaleResult := Except.error "bad format", scaledData := [1], packetPts := 0,
    msg := none, tMsg := 0, tSend := 0 }

/-- A benign iteration processed while a session is open. -/
def recordingInput : IterInput :=
  { decodeResult := Except.ok (), inputFrame := [7],
    scaleResult := Except.ok (), scaledData := [2, 2, 2, 2], packetPts := 77,
    msg := none, tMsg := 100, tSend := 123456 }

/-- An idle run state over a tiny 4-byte buffer. -/
def idleRunState : RunState :=
  { s := { recording := false, start := 0, recStartPts := 0 },
    buf := [0, 0, 0, 0], log := [], spawned := [], sent := [], panicked := none }

/-- An iteration carrying a first Start command. -/
def startInputA : IterInput :=
  { decodeResult := Except.ok (), inputFrame := [],
    scaleResult := Except.ok (), scaledData := [], packetPts := 3,
    msg := some (VideoMsg.Start "a.mpg"), tMsg := 11, tSend := 12 }

/-- An iteration carrying a second Start command with no Stop between. -/
def startInputB : IterInput :=
  { decodeResult := Except.ok (), inputFrame := [],
    scaleResult := Except.ok (), scaledData := [], packetPts := 4,
    msg := some (VideoMsg.Start "b.mpg"), tMsg := 21, tSend := 22 }

/-- The 512×512 RGBA preview allocation as a byte list. -/
def previewBuffer : List Nat := List.replicate previewBufLen 0

/-! ## Helper lemmas -/

/-- Truncating division (`Int.tdiv`, Rust `/` on `i64`) is monotone in the
numerator when the divisor is positive. -/
theorem tdiv_le_tdiv_of_le {a b c : Int} (hc : 0 < c) (h : a ≤ b) :
    a.tdiv c ≤ b.tdiv c := by
  rcases le_or_lt 0 a with ha | ha
  · have hb : 0 ≤ b := le_trans ha h
    rw [Int.tdiv_eq_ediv ha (le_of_lt hc), Int.tdiv_eq_ediv hb (le_of_lt hc)]
    exact Int.ediv_le_ediv hc h
  · rcases le_or_lt 0 b with hb | hb
    · have h1 : a.tdiv c ≤ 0 := by
        have hna : 0 ≤ -a := by omega
        have := Int.tdiv_nonneg hna (le_of_lt hc)
        rw [Int.neg_tdiv] at this
        omega
      have h2 : 0 ≤ b.tdiv c := Int.tdiv_nonneg hb (le_of_lt hc)
      omega
    · have hna : 0 ≤ -b := by omega
      have hnb : -b ≤ -a := by omega
      have hstep : (-b).tdiv c ≤ (-a).tdiv c := by
        rw [Int.tdiv_eq_ediv hna (le_of_lt hc),
            Int.tdiv_eq_ediv (by omega : (0:Int) ≤ -a) (le_of_lt hc)]
        exact Int.ediv_le_ediv hc hnb
      have ha' := Int.neg_tdiv a c
      have hb' := Int.neg_tdiv b c
      omega

theorem applyEv_inv {pub : List Image} {s s1 : LiveBuf} {e : BufEv}
    {obs : Option Image} (hinv : BufInv pub s)
    (h : applyEv s e = some (s1, obs)) :
    BufInv (pubOf e pub) s1 ∧
      ∀ o, obs = some o → ∃ g, g ∈ pub ∧ completeFrame o g := by
  obtain ⟨b, ow, cp⟩ := s
  cases e with
  | wAcquire f =>
    cases ow with
    | held => simp [applyEv] at h
    | free =>
      simp only [applyEv, Option.some.injEq, Prod.mk.injEq] at h
      obtain ⟨rfl, rfl⟩ := h
      rcases hinv with ⟨_, hc, g, hg, hcomp⟩ | ⟨how, _⟩
      · constructor
        · refine Or.inr ⟨rfl, f, 0, g, rfl, Nat.zero_le _, ?_, ?_, ?_⟩
          · exact List.mem_cons_self f pub
          · exact List.mem_cons_of_mem f hg
          · intro i hi
            simp only [Nat.not_lt_zero, if_false]
            exact hcomp i hi
        · intro o ho
          cases ho
      · cases how
  | wCopy =>
    cases ow with
    | free => simp [applyEv] at h
    | held =>
      cases cp with
      | none => simp [applyEv] at h
      | some p =>
        obtain ⟨f, k⟩ := p
        simp only [applyEv] at h
        by_cases hk : k < previewBufLen
        · rw [if_pos hk] at h
          simp only [Option.some.injEq, Prod.mk.injEq] at h
          obtain ⟨rfl, rfl⟩ := h
          rcases hinv with ⟨how, _⟩ | ⟨_, f', k', g, hcp, _, hf, hg, hbuf⟩
          · cases how
          · simp only [Option.some.injEq, Prod.mk.injEq] at hcp
            obtain ⟨rfl, rfl⟩ := hcp
            constructor
            · refine Or.inr ⟨rfl, f, k + 1, g, rfl, by omega, hf, hg, ?_⟩
              intro i hi
              have hb : b i = if i < k then f i else g i := hbuf i hi
              by_cases hik : i = k
              · subst hik
                simp [Nat.lt_succ_self]
              · simp only [if_neg hik]
                rw [hb]
                by_cases hlt : i < k
                · rw [if_pos hlt, if_pos (by omega)]
                · rw [if_neg hlt, if_neg (by omega)]
            · intro o ho
              cases ho
        · rw [if_neg hk] at h
          cases h
  | wRelease =>
    cases ow with
    | free => simp [applyEv] at h
    | held =>
      cases cp with
      | none => simp [applyEv] at h
      | some p =>
        obtain ⟨f, k⟩ := p
        simp only [applyEv] at h
        by_cases hk : k = previewBufLen
        · rw [if_pos hk] at h
          simp only [Option.some.injEq, Prod.mk.injEq] at h
          obtain ⟨rfl, rfl⟩ := h
          rcases hinv with ⟨how, _⟩ | ⟨_, f', k', g, hcp, _, hf, hg, hbuf⟩
          · cases how
          · simp only [Option.some.injEq, Prod.mk.injEq] at hcp
            obtain ⟨rfl, rfl⟩ := hcp
            constructor
            · refine Or.inl ⟨rfl, rfl, f, hf, ?_⟩
              intro i hi
              have hb : b i = if i < k then f i else g i := hbuf i hi
              show b i = f i
              rw [hb, if_pos (by omega)]
            · intro o ho
              cases ho
        · rw [if_neg hk] at h
          cases h
  | rObserve =>
    cases ow with
    | held => simp [applyEv] at h
    | free =>
      simp only [applyEv, Option.some.injEq, Prod.mk.injEq] at h
      obtain ⟨rfl, rfl⟩ := h
      refine ⟨hinv, ?_⟩
      rcases hinv with ⟨_, _, g, hg, hcomp⟩ | ⟨how, _⟩
      · intro o ho
        simp only [Option.some.injEq] at ho
        subst ho
        exact ⟨g, hg, hcomp⟩
      · cases how

theorem mem_pubOf (e : BufEv) (pub : List Image) (rest : List BufEv)
    (x : Image) (h : x ∈ pubOf e pub) : x ∈ pub ∨ x ∈ framesOf (e :: rest) := by
  cases e with
  | wAcquire f =>
    simp only [pubOf, List.mem_cons] at h
    rcases h with rfl | h
    · right
      simp only [framesOf, List.filterMap_cons]
      exact List.mem_cons_self _ _
    · exact Or.inl h
  | wCopy => exact Or.inl h
  | wRelease => exact Or.inl h
  | rObserve => exact Or.inl h

theorem mem_framesOf_cons (e : BufEv) (rest : List BufEv) (x : Image)
    (h : x ∈ framesOf rest) : x ∈ framesOf (e :: rest) := by
  cases e with
  | wAcquire f =>
    simp only [framesOf, List.filterMap_cons] at h ⊢
    exact List.mem_cons_of_mem _ h
  | wCopy => exact h
  | wRelease => exact h
  | rObserve => exact h

theorem runBuf_sound (evs : List BufEv) :
    ∀ (s : LiveBuf) (pub : List Image), BufInv pub s →
    ∀ t obs, runBuf s evs = some (t, obs) →
    ∀ o ∈ obs, ∃ f, (f ∈ pub ∨ f ∈ framesOf evs) ∧ completeFrame o f := by
  induction evs with
  | nil =>
    intro s pub _ t obs h o ho
    simp only [runBuf, Option.some.injEq, Prod.mk.injEq] at h
    obtain ⟨_, rfl⟩ := h
    cases ho
  | cons e rest ih =>
    intro s pub hinv t obs h o ho
    rcases hA : applyEv s e with _ | ⟨s1, obs1⟩
    · simp only [runBuf, hA] at h
      exact Option.noConfusion h
    · simp only [runBuf, hA] at h
      rcases hR : runBuf s1 rest with _ | ⟨t1, l⟩
      · simp only [hR] at h
        exact Option.noConfusion h
      · simp only [hR] at h
        simp only [Option.some.injEq, Prod.mk.injEq] at h
        obtain ⟨_, rfl⟩ := h
        obtain ⟨hinv1, hobs1⟩ := applyEv_inv hinv hA
        rcases List.mem_append.mp ho with ho1 | ho1
        · rcases hobs : obs1 with _ | o1
          · rw [hobs] at ho1
            cases ho1
          · rw [hobs] at ho1
            simp only [Option.toList_some, List.mem_singleton] at ho1
            subst ho1
            obtain ⟨g, hg, hcomp⟩ := hobs1 o hobs
            exact ⟨g, Or.inl hg, hcomp⟩
        · obtain ⟨f, hf, hcomp⟩ := ih s1 (pubOf e pub) hinv1 t1 l hR o ho1
          rcases hf with hf | hf
          · rcases mem_pubOf e pub rest f hf with hf1 | hf1
            · exact ⟨f, Or.inl hf1, hcomp⟩
            · exact ⟨f, Or.inr hf1, hcomp⟩
          · exact ⟨f, Or.inr (mem_framesOf_cons e rest f hf), hcomp⟩

theorem ingestStep_error (s : IngestState) (buf : List Nat) (inp : IterInput)
    (e : String) (hd : inp.decodeResult = Except.error e) :
    ingestStep s buf inp = IterOutcome.panic e := by
  unfold ingestStep
  rw [hd]

theorem ingestStep_ok (s : IngestState) (buf : List Nat) (inp : IterInput)
    (u : Unit) (hd : inp.decodeResult = Except.ok u) :
    ingestStep s buf inp =
      IterOutcome.next (handleMsg s inp.msg inp.packetPts inp.tMsg).1
        (publishFrame buf inp.scaledData)
        ⟨scaleLogOf inp.scaleResult,
         (handleMsg s inp.msg inp.packetPts inp.tMsg).2.1,
         (handleMsg s inp.msg inp.packetPts inp.tMsg).2.2,
         if (handleMsg s inp.msg inp.packetPts inp.tMsg).1.recording then
           [(computePts inp.tSend
               (handleMsg s inp.msg inp.packetPts inp.tMsg).1.start sleepInterval,
             inp.inputFrame)]
         else []⟩ := by
  unfold ingestStep
  rw [hd]

theorem ingestStep_fields (s : IngestState) (buf : List Nat)
    (fr : List Nat) (sc : Except String Unit) (sd : List Nat) (pp : Int)
    (mm : Option VideoMsg) (tM tS : Int) :
    ingestStep s buf ⟨Except.ok (), fr, sc, sd, pp, mm, tM, tS⟩ =
      IterOutcome.next (handleMsg s mm pp tM).1 (publishFrame buf sd)
        ⟨scaleLogOf sc, (handleMsg s mm pp tM).2.1, (handleMsg s mm pp tM).2.2,
         if (handleMsg s mm pp tM).1.recording then
           [(computePts tS (handleMsg s mm pp tM).1.start sleepInterval, fr)]
         else []⟩ := rfl

theorem handleMsg_start_idle (s : IngestState) (p : String) (pp tM : Int)
    (h : s.recording = false) :
    handleMsg s (some (VideoMsg.Start p)) pp tM =
      ({ recording := true, start := tM, recStartPts := pp }, [p], false) := by
  simp [handleMsg, h]

theorem handleMsg_start_busy (s : IngestState) (p : String) (pp tM : Int)
    (h : s.recording = true) :
    handleMsg s (some (VideoMsg.Start p)) pp tM = (s, [], false) := by
  simp [handleMsg, h]

theorem handleMsg_fst_recording (s : IngestState) (mm : Option VideoMsg)
    (pp qq tM : Int) :
    (handleMsg s mm pp tM).1.recording = (handleMsg s mm qq tM).1.recording := by
  rcases mm with _ | m
  · rfl
  · cases m with
    | Start p =>
      by_cases h : s.recording = true
      · simp [handleMsg, h]
      · simp [handleMsg, h]
    | Stop => rfl

theorem handleMsg_fst_start (s : IngestState) (mm : Option VideoMsg)
    (pp qq tM : Int) :
    (handleMsg s mm pp tM).1.start = (handleMsg s mm qq tM).1.start := by
  rcases mm with _ | m
  · rfl
  · cases m with
    | Start p =>
      by_cases h : s.recording = true
      · simp [handleMsg, h]
      · simp [handleMsg, h]
    | Stop => rfl

theorem trailer_not_mem_packetWrite :
    RecAction.writeTrailer ∉ packetWriteActions := by
  simp [packetWriteActions]

theorem recLoop_no_trailer (msgs : List RecMsg) :
    RecAction.writeTrailer ∉ recLoop msgs := by
  induction msgs with
  | nil => simp [recLoop]
  | cons m rest ih =>
    cases m with
    | close => simp [recLoop]
    | packet pts conv enc =>
      intro hmem
      simp only [recLoop] at hmem
      rcases List.mem_append.mp hmem with h | h
      · cases conv with
        | ok u => simp [convActions] at h
        | error e => simp [convActions] at h
      · rcases List.mem_append.mp h with h | h
        · rcases List.mem_cons.mp h with h | h
          · exact RecAction.noConfusion h
          · cases enc with
            | ok b =>
              simp only [encodeActions] at h
              exact trailer_not_mem_packetWrite h
            | error e => simp [encodeActions] at h
        · exact ih h

theorem flatten_no_trailer (n : Nat) :
    RecAction.writeTrailer ∉
      List.flatten (List.replicate n packetWriteActions) := by
  induction n with
  | zero => simp
  | succ k ih =>
    intro hmem
    rw [List.replicate_succ, List.flatten_cons] at hmem
    rcases List.mem_append.mp hmem with h | h
    · exact trailer_not_mem_packetWrite h
    · exact ih h

theorem rescale_mem_packetWrite {src dst : TimeBase}
    (h : RecAction.rescaleTs src dst ∈ packetWriteActions) :
    src = (1, 10) ∧ dst = (1, 17500) := by
  simp only [packetWriteActions, List.mem_cons, List.mem_singleton,
    List.not_mem_nil, or_false] at h
  rcases h with h | h | h
  · exact RecAction.noConfusion h
  · injection h with hs hd
    exact ⟨hs, hd⟩
  · exact RecAction.noConfusion h

theorem rescale_mem_recLoop {src dst : TimeBase} (msgs : List RecMsg)
    (hmem : RecAction.rescaleTs src dst ∈ recLoop msgs) :
    src = (1, 10) ∧ dst = (1, 17500) := by
  induction msgs with
  | nil => simp [recLoop] at hmem
  | cons m rest ih =>
    cases m with
    | close => simp [recLoop] at hmem
    | packet pts conv enc =>
      simp only [recLoop] at hmem
      rcases List.mem_append.mp hmem with h | h
      · cases conv with
        | ok u => simp [convActions] at h
        | error e => simp [convActions] at h
      · rcases List.mem_append.mp h with h | h
        · rcases List.mem_cons.mp h with h | h
          · exact RecAction.noConfusion h
          · cases enc with
            | ok b =>
              simp only [encodeActions] at h
              exact rescale_mem_packetWrite h
            | error e => simp [encodeActions] at h
        · exact ih h

theorem rescale_mem_flatten {src dst : TimeBase} (n : Nat)
    (hmem : RecAction.rescaleTs src dst ∈
      List.flatten (List.replicate n packetWriteActions)) :
    src = (1, 10) ∧ dst = (1, 17500) := by
  induction n with
  | zero => simp at hmem
  | succ k ih =>
    rw [List.replicate_succ, List.flatten_cons] at hmem
    rcases List.mem_append.mp hmem with h | h
    · exact rescale_mem_packetWrite h
    · exact ih h

/-! ## The claims -/

/-- Claim C1: every `RecordPacket::Packet` forwarded to the recording
worker while a session is open carries presentation timestamp
`(tSend - start) / sleepInterval` — the current wall clock minus the
wall clock recorded when the `Start` command was accepted, divided by
the frame interval `1_000_000/fps` microseconds with `fps = 10` — where
the recorded origin `start` is only ever changed by an accepted `Start`,
which sets it to that iteration's wall-clock reading; and the packets
sent do not depend on the source packet's embedded timestamp. -/
theorem claim_C1 (s : IngestState) (buf : List Nat) (inp : IterInput)
    (s1 : IngestState) (buf1 : List Nat) (eff : IterEffects)
    (h : ingestStep s buf inp = IterOutcome.next s1 buf1 eff) :
    (∀ pr ∈ eff.sent, pr.1 = computePts inp.tSend s1.start sleepInterval)
    ∧ (s1.start = s.start ∨
        ∃ p, inp.msg = some (VideoMsg.Start p) ∧ s.recording = false ∧
          s1.start = inp.tMsg)
    ∧ (∀ q : Int, sentOf (ingestStep s buf { inp with packetPts := q }) = eff.sent)
    ∧ fps = 10 ∧ sleepInterval = 100000 := by
  rcases hdr : inp.decodeResult with e | u
  · rw [ingestStep_error s buf inp e hdr] at h
    exact IterOutcome.noConfusion h
  · obtain rfl : u = () := rfl
    rw [ingestStep_ok s buf inp () hdr] at h
    injection h with hs hb he
    subst hs
    subst hb
    subst he
    refine ⟨?_, ?_, ?_, rfl, by decide⟩
    · intro pr hpr
      by_cases hrec : (handleMsg s inp.msg inp.packetPts inp.tMsg).1.recording = true
      · rw [if_pos hrec] at hpr
        rcases List.mem_singleton.mp hpr with rfl
        rfl
      · rw [if_neg hrec] at hpr
        cases hpr
    · rcases hm : inp.msg with _ | m
      · left
        simp [handleMsg]
      · cases m with
        | Stop =>
          left
          simp [handleMsg]
        | Start p =>
          by_cases hrec : s.recording = true
          · left
            rw [handleMsg_start_busy s p inp.packetPts inp.tMsg hrec]
          · have hrec0 : s.recording = false := by
              simpa using hrec
            right
            refine ⟨p, rfl, hrec0, ?_⟩
            rw [handleMsg_start_idle s p inp.packetPts inp.tMsg hrec0]
    · intro q
      rw [ingestStep_fields s buf inp.inputFrame inp.scaleResult
        inp.scaledData q inp.msg inp.tMsg inp.tSend]
      simp only [sentOf]
      rw [handleMsg_fst_recording s inp.msg q inp.packetPts inp.tMsg,
          handleMsg_fst_start s inp.msg q inp.packetPts inp.tMsg]

/-- Witness for claim C1 at a concrete recording state: the packet sent
at wall clock 123456, for a session whose origin is 50, carries exactly
`computePts 123456 50 sleepInterval`; and `sleepInterval = 100000`. -/
theorem claim_C1_witness :
    (computePts 123456 50 sleepInterval, ([7] : List Nat)).1 =
        computePts 123456 50 sleepInterval
    ∧ sleepInterval = 100000 := by
  have h := claim_C1 { recording := true, start := 50, recStartPts := 5 }
    [0, 0, 0, 0] recordingInput { recording := true, start := 50, recStartPts := 5 }
    [2, 2, 2, 2]
    ⟨[], [], false, [(computePts 123456 50 sleepInterval, [7])]⟩ rfl
  exact ⟨h.1 (computePts 123456 50 sleepInterval, [7]) (by simp), h.2.2.2.2⟩

/-- Claim C2: with a fixed recording start time and a fixed positive
frame interval, the computed PTS is monotonically non-decreasing over
any non-decreasing sequence of capture times. -/
theorem claim_C2 (recStart interval : Int) (hpos : 0 < interval)
    (ts : List Int) (hts : ts.Pairwise (fun a b => a ≤ b)) :
    (ts.map (fun c => computePts c recStart interval)).Pairwise
      (fun a b => a ≤ b) := by
  rw [List.pairwise_map]
  refine hts.imp ?_
  intro a b hab
  exact tdiv_le_tdiv_of_le hpos (by omega)

/-- Witness for claim C2 on a concrete non-decreasing capture-time
sequence with the program's actual interval. -/
theorem claim_C2_witness :
    (([0, 150000, 300000] : List Int).map
        (fun c => computePts c 0 100000)).Pairwise (fun a b => a ≤ b) :=
  claim_C2 0 100000 (by decide) [0, 150000, 300000] (by decide)

/-- Claim C3 (amended): a packet whose decode fails makes the ingest
thread panic — `decoder.decode(..).unwrap()` — terminating the loop
with the buffer, log, spawned workers and sent packets unchanged; no
subsequent packet is processed.  (The original claim — log, skip and
continue — is refuted by `claim_C3_cex`.) -/
theorem claim_C3 (st : RunState) (inp : IterInput) (rest : List IterInput)
    (e : String) (hp : st.panicked = none)
    (hd : inp.decodeResult = Except.error e) :
    ingestRun st (inp :: rest) = { st with panicked := some e } := by
  simp only [ingestRun, hp, ingestStep_error st.s st.buf inp e hd]

/-- Counterexample to claim C3 as stated: a decode failure panics the
thread (it is not logged), and the following good packet is never
decoded nor published — the preview buffer still holds the old bytes
instead of the good frame's `[9, 9, 9, 9]`. -/
theorem claim_C3_cex :
    (ingestRun idleRunState [decodeFailInput, goodInput]).panicked =
        some "corrupt packet"
    ∧ (ingestRun idleRunState [decodeFailInput, goodInput]).buf = [0, 0, 0, 0]
    ∧ (ingestRun idleRunState [decodeFailInput, goodInput]).log = [] :=
  ⟨rfl, rfl, rfl⟩

/-- Witness for the amended claim C3 at a concrete failing input. -/
theorem claim_C3_witness :
    ingestRun idleRunState [decodeFailInput] =
      { idleRunState with panicked := some "corrupt packet" } :=
  claim_C3 idleRunState decodeFailInput [] "corrupt packet" rfl rfl

/-- Claim C4 (amended): a preview-scaling failure is logged and does not
stop ingest (no panic), but the raw copy into the shared Live Frame
Buffer is still performed with the output frame's current first-plane
bytes — the previous buffer contents are overwritten, not retained.
(The original claim — previous contents retained — is refuted by
`claim_C4_cex`.) -/
theorem claim_C4 (s : IngestState) (buf : List Nat) (inp : IterInput)
    (u : Unit) (e : String) (hd : inp.decodeResult = Except.ok u)
    (hs : inp.scaleResult = Except.error e) :
    bufOf (ingestStep s buf inp) = some (publishFrame buf inp.scaledData)
    ∧ logOf (ingestStep s buf inp) =
        ["WARNING: video software scaling error: " ++ e]
    ∧ isPanic (ingestStep s buf inp) = false := by
  rw [ingestStep_ok s buf inp u hd]
  refine ⟨rfl, ?_, rfl⟩
  simp [logOf, scaleLogOf, hs]

/-- Counterexample to claim C4 as stated: with the old buffer
`[0, 0, 0, 0]` and a failing scale whose output frame holds `[1]`, the
iteration still copies, leaving `[1, 0, 0, 0] ≠ [0, 0, 0, 0]` — the
previous contents are not retained. -/
theorem claim_C4_cex :
    ingestStep { recording := false, start := 0, recStartPts := 0 }
        [0, 0, 0, 0] scaleFailInput =
      IterOutcome.next { recording := false, start := 0, recStartPts := 0 }
        [1, 0, 0, 0]
        ⟨["WARNING: video software scaling error: bad format"], [], false, []⟩
    ∧ ([1, 0, 0, 0] : List Nat) ≠ [0, 0, 0, 0] :=
  ⟨rfl, by decide⟩

/-- Witness for the amended claim C4 at the concrete failing input. -/
theorem claim_C4_witness :
    bufOf (ingestStep { recording := false, start := 0, recStartPts := 0 }
        [0, 0, 0, 0] scaleFailInput) =
      some (publishFrame [0, 0, 0, 0] scaleFailInput.scaledData)
    ∧ logOf (ingestStep { recording := false, start := 0, recStartPts := 0 }
        [0, 0, 0, 0] scaleFailInput) =
      ["WARNING: video software scaling error: " ++ "bad format"]
    ∧ isPanic (ingestStep { recording := false, start := 0, recStartPts := 0 }
        [0, 0, 0, 0] scaleFailInput) = false :=
  claim_C4 { recording := false, start := 0, recStartPts := 0 } [0, 0, 0, 0]
    scaleFailInput () "bad format" rfl rfl

/-- Claim C5: two `Start` commands with no intervening `Stop`, from any
non-panicked state, leave exactly one recording session open: if idle,
exactly one worker is spawned (for the first path) and the time origin
and `rec_start_pts` come from the first `Start`'s iteration; if already
recording, nothing is spawned and the session state is untouched. -/
theorem claim_C5 (st : RunState) (i1 i2 : IterInput) (p1 p2 : String)
    (hp : st.panicked = none)
    (h1 : i1.decodeResult = Except.ok ()) (h2 : i2.decodeResult = Except.ok ())
    (m1 : i1.msg = some (VideoMsg.Start p1))
    (m2 : i2.msg = some (VideoMsg.Start p2)) :
    (ingestRun st [i1, i2]).panicked = none
    ∧ (ingestRun st [i1, i2]).s.recording = true
    ∧ (st.s.recording = false →
        (ingestRun st [i1, i2]).spawned = st.spawned ++ [p1]
        ∧ (ingestRun st [i1, i2]).s.start = i1.tMsg
        ∧ (ingestRun st [i1, i2]).s.recStartPts = i1.packetPts)
    ∧ (st.s.recording = true →
        (ingestRun st [i1, i2]).spawned = st.spawned
        ∧ (ingestRun st [i1, i2]).s = st.s) := by
  obtain ⟨s0, buf0, log0, sp0, sent0, pk0⟩ := st
  obtain rfl : pk0 = none := hp
  obtain ⟨d1, fr1, sc1, sd1, pp1, mm1, tM1, tS1⟩ := i1
  obtain ⟨d2, fr2, sc2, sd2, pp2, mm2, tM2, tS2⟩ := i2
  obtain rfl : d1 = Except.ok () := h1
  obtain rfl : d2 = Except.ok () := h2
  obtain rfl : mm1 = some (VideoMsg.Start p1) := m1
  obtain rfl : mm2 = some (VideoMsg.Start p2) := m2
  obtain ⟨rec0, start0, pts0⟩ := s0
  cases rec0 with
  | false => simp [ingestRun, ingestStep, handleMsg, scaleLogOf, publishFrame]
  | true => simp [ingestRun, ingestStep, handleMsg, scaleLogOf, publishFrame]

/-- Witness for claim C5: from the concrete idle state, two concrete
`Start` iterations spawn exactly one worker and keep the first origin. -/
theorem claim_C5_witness :
    (ingestRun idleRunState [startInputA, startInputB]).s.recording = true
    ∧ (ingestRun idleRunState [startInputA, startInputB]).spawned =
        [] ++ ["a.mpg"]
    ∧ (ingestRun idleRunState [startInputA, startInputB]).s.start = 11 := by
  have h := claim_C5 idleRunState startInputA startInputB "a.mpg" "b.mpg"
    rfl rfl rfl rfl rfl
  exact ⟨h.2.1, (h.2.2.1 rfl).1, (h.2.2.1 rfl).2.1⟩

/-- Claim C6: for every message sequence — whether it ends with a
`Close` or the channel disconnects — the recording worker's trace is the
header, the receive loop's actions, then one drain-produced packet
write per leading `Ok(true)` flush, and finally the container trailer,
which is written exactly once, as the very last action, only after the
drain completes. -/
theorem claim_C6 (msgs : List RecMsg) (flushes : List (Except String Bool)) :
    ∃ pre, recWorkerRun msgs flushes = pre ++ [RecAction.writeTrailer]
      ∧ RecAction.writeTrailer ∉ pre
      ∧ pre = RecAction.writeHeader ::
          (recLoop msgs ++
            List.flatten (List.replicate (drainWrites flushes) packetWriteActions)) := by
  refine ⟨RecAction.writeHeader ::
    (recLoop msgs ++
      List.flatten (List.replicate (drainWrites flushes) packetWriteActions)),
    ?_, ?_, rfl⟩
  · simp [recWorkerRun, List.append_assoc]
  · intro hmem
    rcases List.mem_cons.mp hmem with h | h
    · exact RecAction.noConfusion h
    · rcases List.mem_append.mp h with h | h
      · exact recLoop_no_trailer msgs h
      · exact flatten_no_trailer (drainWrites flushes) h

/-- Claim C7 (amended): the worker sets both the codec time base and the
container/stream time base to `(1, 1000)` (milliseconds, not `1/fps`),
and every `rescale_ts` it performs on an encoded packet converts from
the hard-coded `(1, 10)` to the hard-coded `(1, 17500)` — neither of
which is a configured time base — with the rescale placed between
`set_stream(0)` and the interleaved write.  (The original claim — codec
time base `1/fps` and a rescale from the configured codec base to the
configured container base — is refuted by `claim_C7_cex`.) -/
theorem claim_C7 (w hgt : Nat) (msgs : List RecMsg)
    (flushes : List (Except String Bool)) (src dst : TimeBase)
    (hmem : RecAction.rescaleTs src dst ∈ recWorkerRun msgs flushes) :
    src = (1, 10) ∧ dst = (1, 17500)
    ∧ (recConfig w hgt).codecTimeBase = (1, 1000)
    ∧ (recConfig w hgt).streamTimeBase = (1, 1000)
    ∧ packetWriteActions =
        [RecAction.setStream 0, RecAction.rescaleTs (1, 10) (1, 17500),
         RecAction.writePacket] := by
  have hsd : src = (1, 10) ∧ dst = (1, 17500) := by
    simp only [recWorkerRun] at hmem
    rcases List.mem_cons.mp hmem with h | h
    · exact RecAction.noConfusion h
    · rcases List.mem_append.mp h with h | h
      · rcases List.mem_append.mp h with h | h
        · exact rescale_mem_recLoop msgs h
        · exact rescale_mem_flatten (drainWrites flushes) h
      · exact RecAction.noConfusion (List.mem_singleton.mp h)
  exact ⟨hsd.1, hsd.2, rfl, rfl, rfl⟩

/-- Counterexample to claim C7 as stated: the worker performs a rescale
from `(1, 10)` to `(1, 17500)`, while the configured codec time base and
stream time base are both `(1, 1000)`; so the rescale source is not the
configured codec time base, its target is not the configured container
time base, and the codec time base is not `(1, fps)`. -/
theorem claim_C7_cex :
    RecAction.rescaleTs (1, 10) (1, 17500) ∈
      recWorkerRun [RecMsg.packet 0 (Except.ok ()) (Except.ok true)] []
    ∧ (recConfig 640 480).codecTimeBase = (1, 1000)
    ∧ (recConfig 640 480).streamTimeBase = (1, 1000)
    ∧ ((1, 10) : TimeBase) ≠ (recConfig 640 480).codecTimeBase
    ∧ ((1, 17500) : TimeBase) ≠ (recConfig 640 480).streamTimeBase
    ∧ (recConfig 640 480).codecTimeBase ≠ ((1, fps) : TimeBase) := by
  refine ⟨?_, rfl, rfl, by decide, by decide, by decide⟩
  simp [recWorkerRun, recLoop, convActions, encodeActions, packetWriteActions,
    drainWrites]

/-- Witness for the amended claim C7 at a concrete run containing one
encoded packet. -/
theorem claim_C7_witness :
    ((1, 10) : TimeBase) = (1, 10)
    ∧ (recConfig 640 480).codecTimeBase = (1, 1000) := by
  have h := claim_C7 640 480 [RecMsg.packet 0 (Except.ok ()) (Except.ok true)]
    [] (1, 10) (1, 17500)
    (by simp [recWorkerRun, recLoop, convActions, encodeActions,
      packetWriteActions, drainWrites])
  exact ⟨h.1, h.2.2.1⟩

/-- Claim C8 (amended): in the recording worker a conversion failure is
logged but the frame is not dropped — it is still passed to the encoder
and, on encoder success, its packet is written; an encode failure is
logged and that frame's packet is not written; in both cases the loop
continues with the remaining messages.  (The original claim — a
conversion failure drops the frame — is refuted by `claim_C8_cex`.) -/
theorem claim_C8 (pts : Int) (e1 e2 : String) (rest : List RecMsg) :
    recLoop (RecMsg.packet pts (Except.error e1) (Except.ok true) :: rest) =
      RecAction.logWarn ("WARNING: video software converter error: " ++ e1)
        :: RecAction.setFramePts pts :: (packetWriteActions ++ recLoop rest)
    ∧ recLoop (RecMsg.packet pts (Except.ok ()) (Except.error e2) :: rest) =
        RecAction.setFramePts pts
          :: RecAction.logWarn ("WARNING: Failed to write video frame: " ++ e2)
          :: recLoop rest
    ∧ RecAction.writePacket ∉ encodeActions (Except.error e2)
    ∧ RecAction.writePacket ∈ encodeActions (Except.ok true) := by
  refine ⟨?_, ?_, ?_, ?_⟩
  · simp [recLoop, convActions, encodeActions]
  · simp [recLoop, convActions, encodeActions]
  · simp [encodeActions]
  · simp [encodeActions, packetWriteActions]

/-- Counterexample to claim C8 as stated: after a conversion failure the
frame's packet is still written to the container (the write action
appears in the trace alongside the conversion warning). -/
theorem claim_C8_cex :
    RecAction.writePacket ∈
      recWorkerRun
        [RecMsg.packet 5 (Except.error "bad pixel data") (Except.ok true)] []
    ∧ RecAction.logWarn
          ("WARNING: video software converter error: bad pixel data") ∈
        recWorkerRun
          [RecMsg.packet 5 (Except.error "bad pixel data") (Except.ok true)] [] := by
  constructor <;>
    simp [recWorkerRun, recLoop, convActions, encodeActions,
      packetWriteActions, drainWrites]

/-- Claim C9: in the interleaved writer/reader semantics of the
mutex-guarded Live Frame Buffer — where the writer holds the lock for
the whole frame copy — every image the reader observes agrees, on all
`512 * 512 * 4` bytes of the preview allocation, with the initial image
or with one of the frames the writer published: no torn or partially
written image is ever exposed. -/
theorem claim_C9 (evs : List BufEv) (t : LiveBuf) (obs : List Image)
    (h : runBuf initLiveBuf evs = some (t, obs)) :
    ∀ o ∈ obs, ∃ f, (f = initialImage ∨ f ∈ framesOf evs) ∧ completeFrame o f := by
  have hinv : BufInv [initialImage] initLiveBuf :=
    Or.inl ⟨rfl, rfl, initialImage, List.mem_singleton.mpr rfl, fun i _ => rfl⟩
  intro o ho
  obtain ⟨f, hf, hc⟩ :=
    runBuf_sound evs initLiveBuf [initialImage] hinv t obs h o ho
  rcases hf with hf | hf
  · exact ⟨f, Or.inl (List.mem_singleton.mp hf), hc⟩
  · exact ⟨f, Or.inr hf, hc⟩

/-- Witness for claim C9 on the concrete trace of a single reader
snapshot from the initial state. -/
theorem claim_C9_witness :
    ∃ f, (f = initialImage ∨ f ∈ framesOf [BufEv.rObserve])
      ∧ completeFrame initialImage f :=
  claim_C9 [BufEv.rObserve] initLiveBuf [initialImage] rfl initialImage
    (List.mem_singleton.mpr rfl)

/-- Claim C10: publishing into the preview image — allocated once with
`512 * 512 * 4` bytes — copies exactly the scaled frame's first-plane
length in bytes to the front of the buffer, unconditionally (no bounds
check truncates it), leaves the remainder untouched, and the write stays
within the allocation precisely when that length is at most
`512 * 512 * 4`. -/
theorem claim_C10 (buf frameData : List Nat) (h : buf.length = previewBufLen) :
    (publishFrame buf frameData).take frameData.length = frameData
    ∧ (publishFrame buf frameData).drop frameData.length =
        buf.drop frameData.length
    ∧ ((publishFrame buf frameData).length = previewBufLen ↔
        frameData.length ≤ previewBufLen)
    ∧ previewBufLen = 512 * 512 * 4 := by
  refine ⟨?_, ?_, ?_, rfl⟩
  · simp [publishFrame]
  · simp [publishFrame]
  · simp only [publishFrame, List.length_append, List.length_drop, h]
    omega

/-- Witness for claim C10 on the concrete full-size preview allocation
and a 3-byte frame plane. -/
theorem claim_C10_witness :
    (publishFrame previewBuffer [1, 2, 3]).take 3 = [1, 2, 3]
    ∧ previewBufLen = 512 * 512 * 4 := by
  have h := claim_C10 previewBuffer [1, 2, 3] (by simp [previewBuffer])
  exact ⟨h.1, h.2.2.2⟩

end RoverVideo
